import Mathlib

/-
  Verification of the life-game repository.

  Shallow embedding of the Python sources:
    - core.py / life_game.py : next_generation, is_cyclical
    - utils.py / life_game.py : rotate_pattern, flip_pattern
    - life_game.py : the interactive session loop `run`, embedded as a
      one-iteration step function over an explicit session record.

  Boards are lists of lists of booleans; machine integers are Int/Nat.
-/

namespace LifeGame

/-- Board cell lookup: `board[r][c]`, defaulting to dead outside the lists. -/
def cell (b : List (List Bool)) (r c : Nat) : Bool := (b.getD r []).getD c false

/-- The 8 Moore-neighborhood offsets, in the order the nested
`for dr in (-1,0,1): for dc in (-1,0,1)` loops of `next_generation`
visit them (the `dr == dc == 0` pair is skipped). -/
def deltas : List (Int × Int) :=
  [(-1,-1), (-1,0), (-1,1), (0,-1), (0,1), (1,-1), (1,0), (1,1)]

/-- The inner neighbor-counting loop of `next_generation` (core.py lines 11-25):
torus mode wraps both indices with Python `%` (Int.emod), non-torus mode counts
a neighbor only when it lies inside `[0,rows) x [0,cols)` and is alive. -/
def liveNeighbors (b : List (List Bool)) (rows cols : Nat) (r c : Int)
    (torus : Bool) : Nat :=
  deltas.foldl
    (fun acc d =>
      let nr := r + d.1
      let nc := c + d.2
      if torus then
        acc + (if cell b ((nr % (rows : Int)).toNat) ((nc % (cols : Int)).toNat) then 1 else 0)
      else
        if 0 ≤ nr ∧ nr < (rows : Int) ∧ 0 ≤ nc ∧ nc < (cols : Int) ∧
            cell b nr.toNat nc.toNat = true then
          acc + 1
        else acc)
    0

/-- Function next_generation (core.py lines 6-30; life_game.py lines 39-58 is the
`torus = false` instance): every cell of the new board is computed from the
old board `b` only. -/
def next_generation (b : List (List Bool)) (torus : Bool) : List (List Bool) :=
  let rows := b.length
  let cols := (b.headD []).length
  (List.range rows).map fun r =>
    (List.range cols).map fun c =>
      let n := liveNeighbors b rows cols (Int.ofNat r) (Int.ofNat c) torus
      if cell b r c then (n == 2 || n == 3) else (n == 3)

/-- Declarative Moore-neighbor count: the number of the 8 offsets whose target
lies inside `[0,rows) x [0,cols)` and is alive (an out-of-range neighbor is
omitted from the count). -/
def mooreCount (b : List (List Bool)) (rows cols : Nat) (r c : Int) : Nat :=
  deltas.countP fun d =>
    decide (0 ≤ r + d.1 ∧ r + d.1 < (rows : Int) ∧ 0 ≤ c + d.2 ∧
      c + d.2 < (cols : Int) ∧ cell b (r + d.1).toNat (c + d.2).toNat = true)

/-- Declarative torus neighbor count: every one of the 8 offsets is counted at
its modulo-wrapped position. -/
def torusCount (b : List (List Bool)) (rows cols : Nat) (r c : Int) : Nat :=
  deltas.countP fun d =>
    cell b (((r + d.1) % (rows : Int)).toNat) (((c + d.2) % (cols : Int)).toNat)

/-- Function is_cyclical (core.py lines 36-53; life_game.py lines 247-271). -/
def is_cyclical (seq : List Int) : Bool :=
  let n := seq.length
  if n < 4 then false
  else
    (List.range' 1 (n / 2)).any fun k =>
      (List.range' k (n - k)).all fun i => seq.getD i 0 == seq.getD (i - k) 0

/-- Python `min` over a list of ints (0 for the empty list, matching the
`if rotated_pattern else 0` guard at the use sites). -/
def listMin : List Int → Int
  | [] => 0
  | [x] => x
  | x :: y :: t => min x (listMin (y :: t))

/-- Python `max` over a list of ints (0 for the empty list). -/
def listMax : List Int → Int
  | [] => 0
  | [x] => x
  | x :: y :: t => max x (listMax (y :: t))

def minR (p : List (Int × Int)) : Int := listMin (p.map Prod.fst)

def minC (p : List (Int × Int)) : Int := listMin (p.map Prod.snd)

def maxR (p : List (Int × Int)) : Int := listMax (p.map Prod.fst)

def maxC (p : List (Int × Int)) : Int := listMax (p.map Prod.snd)

/-- The normalization step at the end of `rotate_pattern`: subtract the
minimum row and minimum column. -/
def normalizePat (rp : List (Int × Int)) : List (Int × Int) :=
  let mr := minR rp
  let mc := minC rp
  rp.map fun q => (q.1 - mr, q.2 - mc)

/-- Function rotate_pattern (utils.py lines 4-22; life_game.py lines 274-292). -/
def rotate_pattern (p : List (Int × Int)) (angle : Int) : List (Int × Int) :=
  if angle = 0 then p
  else if angle = 90 then normalizePat (p.map fun q => (q.2, -q.1))
  else if angle = 180 then normalizePat (p.map fun q => (-q.1, -q.2))
  else if angle = 270 then normalizePat (p.map fun q => (-q.2, q.1))
  else p

/-- Function flip_pattern (utils.py lines 25-30; life_game.py lines 295-300). -/
def flip_pattern (p : List (Int × Int)) : List (Int × Int) :=
  if p = [] then []
  else p.map fun q => (q.1, maxC p - q.2)

def blinkerB : List (List Bool) :=
  [[false, false, false, false, false],
   [false, false, false, false, false],
   [false, true, true, true, false],
   [false, false, false, false, false],
   [false, false, false, false, false]]

def torusB : List (List Bool) :=
  [[true, true, true],
   [false, false, false],
   [false, false, false]]

/-- The apostrophe character, used to build the Windows repr-of-bytes strings. -/
def apos : Char := Char.ofNat 39

/-- The Windows arrow-up fallback string: the Python repr of the two raw
bytes (0xe0, 0x48), produced by the UnicodeDecodeError fallback. -/
def winUp : String := String.mk ['b', apos, '\\', 'x', 'e', '0', 'H', apos]

/-- The Windows arrow-down fallback string: repr of the bytes (0xe0, 0x50). -/
def winDown : String := String.mk ['b', apos, '\\', 'x', 'e', '0', 'P', apos]

/-- The Windows arrow-left fallback string: repr of the bytes (0xe0, 0x4b). -/
def winLeft : String := String.mk ['b', apos, '\\', 'x', 'e', '0', 'K', apos]

/-- The Windows arrow-right fallback string: repr of the bytes (0xe0, 0x4d). -/
def winRight : String := String.mk ['b', apos, '\\', 'x', 'e', '0', 'M', apos]

/-- The Windows backspace fallback string: repr of the single byte 0x7f. -/
def winBsp1 : String := String.mk ['b', apos, '\\', 'x', '7', 'f', apos]

/-- The Windows backspace fallback string: repr of the single byte 0x08. -/
def winBsp2 : String := String.mk ['b', apos, '\\', 'x', '0', '8', apos]

def isUpKey (i : Option String) : Prop := i = some "\x1b[a" ∨ i = some winUp

def isDownKey (i : Option String) : Prop := i = some "\x1b[b" ∨ i = some winDown

def isLeftKey (i : Option String) : Prop := i = some "\x1b[d" ∨ i = some winLeft

def isRightKey (i : Option String) : Prop := i = some "\x1b[c" ∨ i = some winRight

instance (i : Option String) : Decidable (isUpKey i) := by unfold isUpKey; infer_instance

instance (i : Option String) : Decidable (isDownKey i) := by unfold isDownKey; infer_instance

instance (i : Option String) : Decidable (isLeftKey i) := by unfold isLeftKey; infer_instance

instance (i : Option String) : Decidable (isRightKey i) := by unfold isRightKey; infer_instance

/-- Does `pat` occur at the start of the list? Helper for the Python `in` test. -/
def listStarts : List Char → List Char → Bool
  | [], _ => true
  | _ :: _, [] => false
  | a :: as, b :: bs => a == b && listStarts as bs

/-- The Python substring test `pat in l` on lists of characters. -/
def listHasSub (pat : List Char) : List Char → Bool
  | [] => pat.isEmpty
  | b :: bs => listStarts pat (b :: bs) || listHasSub pat bs

/-- The Python guard `processed_input and len(processed_input) == 1 and
processed_input.isprintable()`, modelled for the ASCII inputs the terminal
reader produces (printable = not a control character). -/
def pyPrintable : Option String → Bool
  | some str =>
    match str.data with
    | [ch] => decide (32 ≤ ch.toNat) && decide (ch.toNat ≠ 127)
    | _ => false
  | none => false

/-- Compute `search_query[:-1]`: drop the last character of a string. -/
def dropLastChar (q : String) : String := String.mk q.data.dropLast

/-- The live-cell count `sum(cell for row in board for cell in row)`. -/
def countAlive (b : List (List Bool)) : Nat :=
  (b.map fun row => row.countP fun x => x).sum

/-- Appending to a `deque(maxlen=N)`: the new element goes to the right and
the leftmost elements are dropped so the length never exceeds `N`. -/
def pushHist (N : Nat) (h : List Int) (a : Int) : List Int :=
  let h2 := h ++ [a]
  h2.drop (h2.length - N)

/-- The fixed configuration of one `run(...)` call (life_game.py lines 306-317).
`stagnateLimit = none` models `stagnate_limit` being falsy (no history deque);
`headerNonempty` models `header_items` being a non-empty string; the pattern
library (`patterns.py`, loaded at startup) is the name list together with a
lookup function. -/
structure Config where
  rows : Nat
  cols : Nat
  endless : Bool
  stagnateLimit : Option Nat
  keepAlive : Bool
  headerNonempty : Bool
  patternNames : List String
  library : String → List (Int × Int)

/-- The mutable state of the `run` loop (life_game.py lines 325-347). -/
structure Session where
  board : List (List Bool)
  generation : Nat
  gameNo : Nat
  maxGeneration : Int
  history : List Int
  paused : Bool
  editMode : Bool
  patternSelectionMode : Bool
  placementMode : Bool
  cursorY : Int
  cursorX : Int
  selectedPatternIndex : Int
  patternScrollOffset : Int
  searchMode : Bool
  searchQuery : String
  patternRotation : Nat
  patternFlip : Bool
  lastAliveCount : Nat
  deriving DecidableEq

/-- The observable outcome of one loop iteration: either the loop continues
with a new state, or it breaks out reporting the final game number and
maximum generation. -/
inductive StepResult where
  | cont (s : Session)
  | exit (gameNo : Nat) (maxGeneration : Int)
  deriving DecidableEq

/-- The initial state of `run` (game 1, generation 0, all mode flags off,
empty history; the board comes from `create_board`, modelled as a parameter
since it is random). -/
def initSession (b : List (List Bool)) : Session :=
  { board := b, generation := 0, gameNo := 1, maxGeneration := 0, history := [],
    paused := false, editMode := false, patternSelectionMode := false,
    placementMode := false, cursorY := 0, cursorX := 0, selectedPatternIndex := 0,
    patternScrollOffset := 0, searchMode := false, searchQuery := "",
    patternRotation := 0, patternFlip := false, lastAliveCount := 0 }

/-- Flag is_static_mode (life_game.py line 426). -/
def isStaticMode (s : Session) : Bool :=
  s.paused || s.editMode || s.placementMode || s.patternSelectionMode

/-- The filtered pattern-name list (life_game.py lines 376-379 and 536-539):
names containing the query case-insensitively, or all names when the query
is empty. -/
def displayNames (cfg : Config) (s : Session) : List String :=
  if s.searchQuery ≠ "" then
    cfg.patternNames.filter fun nm => listHasSub s.searchQuery.toLower.data nm.toLower.data
  else cfg.patternNames

/-- Value display_pattern (life_game.py lines 381-386): in placement mode with a
non-empty filtered list, the stored pattern with flip applied first and
rotation applied second. -/
def displayPatternOf (cfg : Config) (s : Session) (dns : List String) :
    Option (List (Int × Int)) :=
  if s.placementMode && !dns.isEmpty then
    let pat := cfg.library (dns.getD s.selectedPatternIndex.toNat "")
    some (rotate_pattern (if s.patternFlip then flip_pattern pat else pat)
      (Int.ofNat s.patternRotation))
  else none

/-- Flag stagnated (life_game.py lines 428-431): requires a history deque, a full
window, and a cyclical content. -/
def stagnatedB (cfg : Config) (s : Session) : Bool :=
  match cfg.stagnateLimit with
  | some N => s.history.length == N && is_cyclical s.history
  | none => false

/-- The Dead condition (life_game.py line 433). -/
def deadB (cfg : Config) (alive : Nat) (s : Session) : Bool :=
  (alive == 0 && !cfg.keepAlive) || stagnatedB cfg s

/-- Value effective_generation (life_game.py lines 434-436). -/
def effectiveGen (cfg : Config) (s : Session) : Int :=
  (s.generation : Int) - (if stagnatedB cfg s then ((cfg.stagnateLimit.getD 0 : Nat) : Int) else 0)

/-- The `last_alive_count` update (life_game.py lines 421-423). -/
def preUpdate (s : Session) (alive : Nat) : Session :=
  if !s.editMode && !s.placementMode then { s with lastAliveCount := alive } else s

/-- The endless-mode restart (life_game.py lines 439-447). -/
def endlessRestart (fresh : List (List Bool)) (s : Session) (mg : Int) : Session :=
  { s with
    gameNo := s.gameNo + 1
    board := fresh
    generation := 0
    lastAliveCount := 0
    history := []
    maxGeneration := mg }

/-- The history append (life_game.py lines 457-459), a no-op when there is no
history deque. -/
def pushHistC (cfg : Config) (s : Session) (alive : Nat) : Session :=
  match cfg.stagnateLimit with
  | some N => { s with history := pushHist N s.history (Int.ofNat alive) }
  | none => s

/-- One board advance (life_game.py lines 634-635). -/
def advanceGen (s : Session) : Session :=
  { s with board := next_generation s.board false, generation := s.generation + 1 }

/-- Cell assignment used by pattern placement: `board[r][c] = True`. -/
def setCellTrue (b : List (List Bool)) (r c : Nat) : List (List Bool) :=
  b.set r ((b.getD r []).set c true)

/-- The placement commit loop (life_game.py lines 599-603): every in-bounds
`cursor + offset` cell is set alive, out-of-bounds offsets are skipped. -/
def stampPattern (rows cols : Nat) (b : List (List Bool)) (cy cx : Int)
    (pat : List (Int × Int)) : List (List Bool) :=
  pat.foldl
    (fun bd d =>
      let r := cy + d.1
      let c := cx + d.2
      if 0 ≤ r ∧ r < (rows : Int) ∧ 0 ≤ c ∧ c < (cols : Int) then
        setCellTrue bd r.toNat c.toNat
      else bd)
    b

/-- Toggle `board[cursor_y][cursor_x]` in edit mode (life_game.py line 619). -/
def toggleCell (b : List (List Bool)) (y x : Int) : List (List Bool) :=
  b.set y.toNat ((b.getD y.toNat []).set x.toNat (!(b.getD y.toNat []).getD x.toNat false))

/-- The Pattern Selection Mode block (life_game.py lines 534-582). -/
def handleSelection (cfg : Config) (s : Session) (input : Option String)
    (dns : List String) : Session :=
  let maxItems : Int := (cfg.rows : Int) - (if cfg.headerNonempty then 3 else 1) - 3
  if s.searchMode then
    let s1 :=
      if pyPrintable input then { s with searchQuery := s.searchQuery ++ (input.getD "") }
      else if input = some winBsp1 ∨ input = some winBsp2 then
        { s with searchQuery := dropLastChar s.searchQuery }
      else if input = some "\r" ∨ input = some "\n" then { s with searchMode := false }
      else if input = some "\x1b" then { s with
        searchMode := false
        searchQuery := "" }
      else s
    { s1 with
      selectedPatternIndex := 0
      patternScrollOffset := 0 }
  else
    if input = some "/" then { s with
      searchMode := true
      searchQuery := "" }
    else if isUpKey input then
      let sel := max 0 (s.selectedPatternIndex - 1)
      { s with
        selectedPatternIndex := sel
        patternScrollOffset :=
          if sel < s.patternScrollOffset then sel else s.patternScrollOffset }
    else if isDownKey input then
      let sel := min ((dns.length : Int) - 1) (s.selectedPatternIndex + 1)
      { s with
        selectedPatternIndex := sel
        patternScrollOffset :=
          if s.patternScrollOffset + maxItems ≤ sel then sel - maxItems + 1
          else s.patternScrollOffset }
    else if input = some " " then
      if !dns.isEmpty then
        { s with
          patternSelectionMode := false
          placementMode := true
          patternRotation := 0
          patternFlip := false }
      else s
    else if input = some "l" ∨ input = some "\x1b" then
      { s with patternSelectionMode := false }
    else s

/-- The Placement Mode block (life_game.py lines 585-606). -/
def handlePlacement (cfg : Config) (s : Session) (input : Option String)
    (dp : Option (List (Int × Int))) : Session :=
  if isUpKey input then { s with cursorY := max 0 (s.cursorY - 1) }
  else if isDownKey input then { s with cursorY := min ((cfg.rows : Int) - 1) (s.cursorY + 1) }
  else if isLeftKey input then { s with cursorX := max 0 (s.cursorX - 1) }
  else if isRightKey input then { s with cursorX := min ((cfg.cols : Int) - 1) (s.cursorX + 1) }
  else if input = some "r" then { s with patternRotation := (s.patternRotation + 90) % 360 }
  else if input = some "f" then { s with patternFlip := !s.patternFlip }
  else if input = some " " then
    match dp with
    | some pat =>
      if !pat.isEmpty then
        { s with board := stampPattern cfg.rows cfg.cols s.board s.cursorY s.cursorX pat }
      else s
    | none => s
  else if input = some "l" ∨ input = some "\x1b" then { s with placementMode := false }
  else s

/-- The Edit Mode block (life_game.py lines 609-622). -/
def handleEdit (cfg : Config) (s : Session) (input : Option String) : Session :=
  if isUpKey input then { s with cursorY := max 0 (s.cursorY - 1) }
  else if isDownKey input then { s with cursorY := min ((cfg.rows : Int) - 1) (s.cursorY + 1) }
  else if isLeftKey input then { s with cursorX := max 0 (s.cursorX - 1) }
  else if isRightKey input then { s with cursorX := min ((cfg.cols : Int) - 1) (s.cursorX + 1) }
  else if input = some " " then { s with board := toggleCell s.board s.cursorY s.cursorX }
  else s

/-- The input-processing part of one loop iteration (life_game.py lines
502-635), from the Game Control Keys down to the next-generation advance. -/
def handleInput (cfg : Config) (fresh : List (List Bool)) (s : Session)
    (input : Option String) (dns : List String) (dp : Option (List (Int × Int))) :
    Session :=
  if input = some "r" ∧ s.placementMode = false then
    { s with
      maxGeneration := max s.maxGeneration (s.generation : Int)
      gameNo := s.gameNo + 1
      board := fresh
      generation := 0
      lastAliveCount := 0
      paused := false
      editMode := false
      history := [] }
  else if input = some "p" then
    { s with
      paused := !s.paused
      editMode := false
      placementMode := false
      patternSelectionMode := false
      history := [] }
  else if s.paused = true ∧ s.placementMode = false ∧ s.patternSelectionMode = false ∧
      input = some "e" then
    { s with
      editMode := !s.editMode
      history := [] }
  else if s.paused = true ∧ s.editMode = false ∧ s.placementMode = false ∧
      input = some "l" then
    { s with
      patternSelectionMode := !s.patternSelectionMode
      placementMode := false
      editMode := false }
  else if s.patternSelectionMode = true then handleSelection cfg s input dns
  else if s.placementMode = true then handlePlacement cfg s input dp
  else if s.editMode = true then handleEdit cfg s input
  else if s.paused = true ∧ input = some "n" then advanceGen { s with history := [] }
  else if s.paused = true then s
  else advanceGen s

/-- One iteration of the `run` loop (life_game.py lines 361-635): compute the
alive count and the display pattern, update `last_alive_count`, evaluate the
Dead condition when not in a static mode (exiting or restarting in endless
mode), append to the history, then process one input. `fresh` stands for the
board `create_board` would produce, abstracting the random source. -/
def step (cfg : Config) (fresh : List (List Bool)) (s : Session)
    (input : Option String) : StepResult :=
  let alive := countAlive s.board
  let dns := displayNames cfg s
  let dp := displayPatternOf cfg s dns
  let s1 := preUpdate s alive
  if isStaticMode s1 then .cont (handleInput cfg fresh s1 input dns dp)
  else if deadB cfg alive s1 then
    let mg := max s1.maxGeneration (effectiveGen cfg s1)
    if cfg.endless then .cont (endlessRestart fresh s1 mg)
    else .exit s1.gameNo mg
  else .cont (handleInput cfg fresh (pushHistC cfg s1 alive) input dns dp)

/-- The session states reachable by the `run` loop from its initial state
(with arbitrary boards supplied by the random source and arbitrary inputs). -/
inductive Reachable (cfg : Config) : Session → Prop where
  | init (b : List (List Bool)) : Reachable cfg (initSession b)
  | step (s s' : Session) (fresh : List (List Bool)) (input : Option String) :
      Reachable cfg s → step cfg fresh s input = .cont s' → Reachable cfg s'

def cfgW : Config :=
  { rows := 3, cols := 3, endless := false, stagnateLimit := some 4, keepAlive := false,
    headerNonempty := true, patternNames := [], library := fun _ => [] }

def bW : List (List Bool) := [[true, true, false], [true, true, false], [false, false, false]]

def sPausedW : Session := { initSession bW with
  paused := true
  lastAliveCount := 4 }

/-- A board with exactly `rows` rows of exactly `cols` cells. -/
def wellShaped (b : List (List Bool)) (rows cols : Nat) : Prop :=
  b.length = rows ∧ ∀ i, i < rows → (b.getD i []).length = cols

def sEditW : Session := { initSession bW with
  paused := true
  editMode := true
  generation := 7 }

def sStagW : Session := { initSession bW with
  history := [4, 4, 4, 4]
  generation := 10 }

def cfgP : Config :=
  { rows := 3, cols := 3, endless := false, stagnateLimit := none, keepAlive := false,
    headerNonempty := true, patternNames := ["pair"], library := fun _ => [(0, 0), (0, 2)] }

def bP3 : List (List Bool) :=
  [[false, false, false], [false, false, false], [false, false, false]]

def sP : Session := { initSession bP3 with
  paused := true
  placementMode := true
  cursorY := 1
  cursorX := 1 }

/-- C10: rotate_pattern with any angle outside 0, 90, 180, 270 (for example
45 or -90) returns the input pattern unchanged; the function is total over
all integer angles. -/
theorem rotate_pattern_invalid_angle (p : List (Int × Int)) (a : Int)
    (h0 : a ≠ 0) (h90 : a ≠ 90) (h180 : a ≠ 180) (h270 : a ≠ 270) :
    rotate_pattern p a = p := by
  simp [rotate_pattern, h0, h90, h180, h270]

theorem rotate_pattern_invalid_angle_witness :
    rotate_pattern [((0:Int), (1:Int))] 45 = [(0, 1)] ∧
    rotate_pattern [((0:Int), (1:Int))] (-90) = [(0, 1)] :=
  ⟨rotate_pattern_invalid_angle _ 45 (by decide) (by decide) (by decide) (by decide),
   rotate_pattern_invalid_angle _ (-90) (by decide) (by decide) (by decide) (by decide)⟩

-- C2

/-- C2: is_cyclical returns false on sequences shorter than 4; otherwise it
returns true exactly when some candidate period k with 1 <= k <= n/2
satisfies seq[i] = seq[i-k] for every i in [k, n) — constant runs (k = 1),
alternation (k = 2) and longer motifs are treated uniformly. -/
theorem is_cyclical_spec (seq : List Int) :
    (seq.length < 4 → is_cyclical seq = false) ∧
    (4 ≤ seq.length →
      (is_cyclical seq = true ↔
        ∃ k, 1 ≤ k ∧ k ≤ seq.length / 2 ∧
          ∀ i, k ≤ i → i < seq.length → seq.getD i 0 = seq.getD (i - k) 0)) := by
  constructor
  · intro h
    simp [is_cyclical, h]
  · intro h
    have h4 : ¬ seq.length < 4 := by omega
    simp only [is_cyclical, h4, if_false, List.any_eq_true, List.all_eq_true,
      List.mem_range'_1, beq_iff_eq]
    constructor
    · rintro ⟨k, ⟨hk1, hk2⟩, hall⟩
      exact ⟨k, hk1, by omega, fun i h1 h2 => hall i ⟨h1, by omega⟩⟩
    · rintro ⟨k, hk1, hk2, hall⟩
      exact ⟨k, ⟨hk1, by omega⟩, fun i ⟨h1, h2⟩ => hall i h1 (by omega)⟩

theorem foldl_ite_count (P : Int × Int → Prop) [DecidablePred P] :
    ∀ (L : List (Int × Int)) (acc : Nat),
      L.foldl (fun a d => if P d then a + 1 else a) acc
        = acc + L.countP fun d => decide (P d)
  | [], _ => by simp
  | d :: t, acc => by
    rw [List.foldl_cons, List.countP_cons, foldl_ite_count P t]
    by_cases h : P d <;> simp [h] <;> omega

theorem foldl_add_count (q : Int × Int → Bool) :
    ∀ (L : List (Int × Int)) (acc : Nat),
      L.foldl (fun a d => a + if q d then 1 else 0) acc = acc + L.countP q
  | [], _ => by simp
  | d :: t, acc => by
    rw [List.foldl_cons, List.countP_cons, foldl_add_count q t]
    by_cases h : q d <;> simp [h] <;> omega

theorem liveNeighbors_false_eq (b : List (List Bool)) (rows cols : Nat) (r c : Int) :
    liveNeighbors b rows cols r c false = mooreCount b rows cols r c := by
  show deltas.foldl (fun a d =>
      if 0 ≤ r + d.1 ∧ r + d.1 < (rows : Int) ∧ 0 ≤ c + d.2 ∧ c + d.2 < (cols : Int) ∧
          cell b (r + d.1).toNat (c + d.2).toNat = true then a + 1 else a) 0 = _
  rw [foldl_ite_count]
  simp [mooreCount]

theorem liveNeighbors_true_eq (b : List (List Bool)) (rows cols : Nat) (r c : Int) :
    liveNeighbors b rows cols r c true = torusCount b rows cols r c := by
  show deltas.foldl (fun a d =>
      a + if cell b (((r + d.1) % (rows : Int)).toNat) (((c + d.2) % (cols : Int)).toNat)
        then 1 else 0) 0 = _
  rw [foldl_add_count]
  simp [torusCount]

theorem next_generation_cell (b : List (List Bool)) (torus : Bool) (r c : Nat)
    (hr : r < b.length) (hc : c < (b.headD []).length) :
    cell (next_generation b torus) r c =
      (let n := liveNeighbors b b.length (b.headD []).length (Int.ofNat r) (Int.ofNat c) torus
       if cell b r c then (n == 2 || n == 3) else (n == 3)) := by
  simp only [next_generation, cell, List.getD_eq_getElem?_getD, List.getElem?_map,
    List.getElem?_range hr, List.getElem?_range hc, Option.map_some', Option.getD_some]

/-- C1: on a rectangular board without torus, the cell produced by
next_generation is alive exactly when (the old cell was alive and its
in-bounds Moore-neighbor count is 2 or 3) or (the old cell was dead and the
count is exactly 3); out-of-range neighbors are omitted from the count and
every new cell is a function of the old board snapshot only. -/
theorem next_generation_nontorus (b : List (List Bool))
    (hne : b ≠ []) (hrect : ∀ row ∈ b, row.length = (b.headD []).length)
    (r c : Nat) (hr : r < b.length) (hc : c < (b.headD []).length) :
    cell (next_generation b false) r c = true ↔
      ((cell b r c = true ∧
         (mooreCount b b.length (b.headD []).length (Int.ofNat r) (Int.ofNat c) = 2 ∨
          mooreCount b b.length (b.headD []).length (Int.ofNat r) (Int.ofNat c) = 3)) ∨
       (cell b r c = false ∧
         mooreCount b b.length (b.headD []).length (Int.ofNat r) (Int.ofNat c) = 3)) := by
  rw [next_generation_cell b false r c hr hc]
  simp only [liveNeighbors_false_eq]
  cases h : cell b r c <;> simp [h]

theorem next_generation_nontorus_witness :
    cell (next_generation blinkerB false) 1 2 = true :=
  (next_generation_nontorus blinkerB (by decide) (by decide) 1 2 (by decide)
    (by decide)).mpr (by decide)

/-- C6: in torus mode every one of the 8 Moore offsets wraps row and column
independently via modulo, the wrapped index is always in bounds, each
neighbor is counted at its wrapped position, and the same survival/birth
rule as the non-torus case is applied to that count. -/
theorem next_generation_torus (b : List (List Bool))
    (hne : b ≠ []) (hrect : ∀ row ∈ b, row.length = (b.headD []).length)
    (hcols : 0 < (b.headD []).length)
    (r c : Nat) (hr : r < b.length) (hc : c < (b.headD []).length) :
    (∀ d ∈ deltas,
      0 ≤ (Int.ofNat r + d.1) % (b.length : Int) ∧
      (Int.ofNat r + d.1) % (b.length : Int) < (b.length : Int) ∧
      0 ≤ (Int.ofNat c + d.2) % (((b.headD []).length : Nat) : Int) ∧
      (Int.ofNat c + d.2) % (((b.headD []).length : Nat) : Int) < ((b.headD []).length : Int)) ∧
    (cell (next_generation b true) r c = true ↔
      ((cell b r c = true ∧
         (torusCount b b.length (b.headD []).length (Int.ofNat r) (Int.ofNat c) = 2 ∨
          torusCount b b.length (b.headD []).length (Int.ofNat r) (Int.ofNat c) = 3)) ∨
       (cell b r c = false ∧
         torusCount b b.length (b.headD []).length (Int.ofNat r) (Int.ofNat c) = 3))) := by
  have hrows : 0 < b.length := List.length_pos.mpr hne
  constructor
  · intro d _
    have h1 : (b.length : Int) ≠ 0 := by omega
    have h2 : (0 : Int) < (b.length : Int) := by omega
    have h3 : (((b.headD []).length : Nat) : Int) ≠ 0 := by omega
    have h4 : (0 : Int) < (((b.headD []).length : Nat) : Int) := by omega
    exact ⟨Int.emod_nonneg _ h1, Int.emod_lt_of_pos _ h2,
      Int.emod_nonneg _ h3, Int.emod_lt_of_pos _ h4⟩
  · rw [next_generation_cell b true r c hr hc]
    simp only [liveNeighbors_true_eq]
    cases h : cell b r c <;> simp [h]

theorem next_generation_torus_witness :
    cell (next_generation torusB true) 1 1 = true :=
  ((next_generation_torus torusB (by decide) (by decide) (by decide) 1 1 (by decide)
    (by decide)).2).mpr (by decide)

theorem listMin_map_neg : ∀ (l : List Int), l ≠ [] →
    listMin (l.map fun x => -x) = -(listMax l)
  | [x], _ => by simp [listMin, listMax]
  | x :: y :: t, _ => by
    have ih := listMin_map_neg (y :: t) (by simp)
    simp only [List.map_cons] at ih ⊢
    rw [listMin, listMax, ih]
    omega

theorem listMin_map_const_sub (K : Int) : ∀ (l : List Int), l ≠ [] →
    listMin (l.map fun x => K - x) = K - listMax l
  | [x], _ => by simp [listMin, listMax]
  | x :: y :: t, _ => by
    have ih := listMin_map_const_sub K (y :: t) (by simp)
    simp only [List.map_cons] at ih ⊢
    rw [listMin, listMax, ih]
    omega

theorem listMax_map_const_sub (K : Int) : ∀ (l : List Int), l ≠ [] →
    listMax (l.map fun x => K - x) = K - listMin l
  | [x], _ => by simp [listMin, listMax]
  | x :: y :: t, _ => by
    have ih := listMax_map_const_sub K (y :: t) (by simp)
    simp only [List.map_cons] at ih ⊢
    rw [listMax, listMin, ih]
    omega

theorem listMin_map_sub_const (K : Int) : ∀ (l : List Int), l ≠ [] →
    listMin (l.map fun x => x - K) = listMin l - K
  | [x], _ => by simp [listMin]
  | x :: y :: t, _ => by
    have ih := listMin_map_sub_const K (y :: t) (by simp)
    simp only [List.map_cons] at ih ⊢
    rw [listMin, listMin, ih]
    omega

theorem listMax_map_sub_const (K : Int) : ∀ (l : List Int), l ≠ [] →
    listMax (l.map fun x => x - K) = listMax l - K
  | [x], _ => by simp [listMax]
  | x :: y :: t, _ => by
    have ih := listMax_map_sub_const K (y :: t) (by simp)
    simp only [List.map_cons] at ih ⊢
    rw [listMax, listMax, ih]
    omega

theorem minC_map (f g : Int × Int → Int) (p : List (Int × Int)) :
    minC (p.map fun q => (f q, g q)) = listMin (p.map g) := by
  unfold minC
  rw [List.map_map]
  rfl

theorem minR_map (f g : Int × Int → Int) (p : List (Int × Int)) :
    minR (p.map fun q => (f q, g q)) = listMin (p.map f) := by
  unfold minR
  rw [List.map_map]
  rfl

theorem maxR_map (f g : Int × Int → Int) (p : List (Int × Int)) :
    maxR (p.map fun q => (f q, g q)) = listMax (p.map f) := by
  unfold maxR
  rw [List.map_map]
  rfl

theorem maxC_map (f g : Int × Int → Int) (p : List (Int × Int)) :
    maxC (p.map fun q => (f q, g q)) = listMax (p.map g) := by
  unfold maxC
  rw [List.map_map]
  rfl

theorem map_fst_comp (g : Int → Int) (p : List (Int × Int)) :
    p.map (fun q => g q.1) = (p.map Prod.fst).map g := by
  rw [List.map_map]
  rfl

theorem map_snd_comp (g : Int → Int) (p : List (Int × Int)) :
    p.map (fun q => g q.2) = (p.map Prod.snd).map g := by
  rw [List.map_map]
  rfl

theorem rotate90_eq (p : List (Int × Int)) (hne : p ≠ []) :
    rotate_pattern p 90 = p.map fun q => (q.2 - minC p, maxR p - q.1) := by
  have hfst : p.map Prod.fst ≠ [] := by simpa using hne
  unfold rotate_pattern normalizePat
  rw [if_neg (by decide), if_pos rfl]
  rw [List.map_map]
  have e1 : minR (p.map fun q => (q.2, -q.1)) = minC p :=
    minR_map (fun q => q.2) (fun q => -q.1) p
  have e2 : minC (p.map fun q => (q.2, -q.1)) = -(maxR p) := by
    rw [minC_map (fun q => q.2) (fun q => -q.1) p]
    rw [map_fst_comp (fun x => -x) p]
    exact listMin_map_neg _ hfst
  rw [e1, e2]
  apply List.map_congr_left
  intro q _
  simp only [Function.comp, Prod.mk.injEq, true_and]
  omega

/-- C7: four successive 90-degree rotations reproduce any normalized pattern
(minimum row offset and minimum column offset both 0) exactly. -/
theorem rotate_pattern_four_times (p : List (Int × Int))
    (h1 : minR p = 0) (h2 : minC p = 0) :
    rotate_pattern (rotate_pattern (rotate_pattern (rotate_pattern p 90) 90) 90) 90 = p := by
  rcases eq_or_ne p [] with rfl | hne
  · rfl
  have hfst : p.map Prod.fst ≠ [] := by simpa using hne
  have hsnd : p.map Prod.snd ≠ [] := by simpa using hne
  have hne1 : (p.map fun q : Int × Int => (q.2, maxR p - q.1)) ≠ [] := by simpa using hne
  have hne2 : (p.map fun q : Int × Int => (maxR p - q.1, maxC p - q.2)) ≠ [] := by
    simpa using hne
  have hne3 : (p.map fun q : Int × Int => (maxC p - q.2, q.1)) ≠ [] := by simpa using hne
  have r1 : rotate_pattern p 90 = p.map fun q => (q.2, maxR p - q.1) := by
    rw [rotate90_eq p hne, h2]
    simp only [sub_zero]
  have c1 : minC (p.map fun q : Int × Int => (q.2, maxR p - q.1)) = 0 := by
    rw [minC_map, map_fst_comp, listMin_map_const_sub _ _ hfst]
    simp [maxR]
  have m1 : maxR (p.map fun q : Int × Int => (q.2, maxR p - q.1)) = maxC p := by
    rw [maxR_map]
    rfl
  have r2 : rotate_pattern (p.map fun q : Int × Int => (q.2, maxR p - q.1)) 90
      = p.map fun q => (maxR p - q.1, maxC p - q.2) := by
    rw [rotate90_eq _ hne1, c1, m1, List.map_map]
    apply List.map_congr_left
    intro q _
    simp only [Function.comp, Prod.mk.injEq, sub_zero, true_and, and_true]
    all_goals omega
  have c2 : minC (p.map fun q : Int × Int => (maxR p - q.1, maxC p - q.2)) = 0 := by
    rw [minC_map, map_snd_comp, listMin_map_const_sub _ _ hsnd]
    simp [maxC]
  have m2 : maxR (p.map fun q : Int × Int => (maxR p - q.1, maxC p - q.2)) = maxR p := by
    rw [maxR_map, map_fst_comp, listMax_map_const_sub _ _ hfst]
    simp only [show listMin (p.map Prod.fst) = minR p from rfl, h1, sub_zero]
  have r3 : rotate_pattern (p.map fun q : Int × Int => (maxR p - q.1, maxC p - q.2)) 90
      = p.map fun q => (maxC p - q.2, q.1) := by
    rw [rotate90_eq _ hne2, c2, m2, List.map_map]
    apply List.map_congr_left
    intro q _
    simp only [Function.comp, Prod.mk.injEq, sub_zero, true_and, and_true]
    all_goals omega
  have c3 : minC (p.map fun q : Int × Int => (maxC p - q.2, q.1)) = 0 := by
    rw [minC_map]
    simp only [show listMin (p.map fun q : Int × Int => q.1) = minR p from rfl, h1]
  have m3 : maxR (p.map fun q : Int × Int => (maxC p - q.2, q.1)) = maxC p := by
    rw [maxR_map, map_snd_comp, listMax_map_const_sub _ _ hsnd]
    simp only [show listMin (p.map Prod.snd) = minC p from rfl, h2, sub_zero]
  have r4 : rotate_pattern (p.map fun q : Int × Int => (maxC p - q.2, q.1)) 90 = p := by
    rw [rotate90_eq _ hne3, c3, m3, List.map_map]
    have : ∀ q ∈ p, ((fun q : Int × Int => (q.2 - 0, maxC p - q.1)) ∘
        fun q : Int × Int => (maxC p - q.2, q.1)) q = id q := by
      intro q _
      simp only [Function.comp, sub_zero, id]
      have hq : maxC p - (maxC p - q.2) = q.2 := by omega
      rw [hq]
    rw [List.map_congr_left this, List.map_id]
  rw [r1, r2, r3, r4]

theorem rotate_pattern_four_times_witness :
    rotate_pattern (rotate_pattern (rotate_pattern (rotate_pattern
      [((0:Int),(0:Int)), (0,1), (1,1)] 90) 90) 90) 90 = [(0,0), (0,1), (1,1)] :=
  rotate_pattern_four_times [(0,0), (0,1), (1,1)] (by decide) (by decide)

/-- C8 counterexample: flip_pattern is not an involution on arbitrary
patterns — flipping the single-cell pattern [(0,1)] twice yields [(0,0)],
not [(0,1)], because flip re-anchors columns at maxCol. -/
theorem flip_flip_not_id :
    ¬ (flip_pattern (flip_pattern [((0:Int),(1:Int))]) = [(0,1)]) := by decide

/-- C8 (amended): flip_pattern mirrors each cell to (r, maxCol - c), maps the
empty pattern to the empty pattern, and is an involution on every pattern
whose minimum column offset is 0 — in particular on all normalized
patterns. -/
theorem flip_pattern_involution (p : List (Int × Int)) (h : minC p = 0) :
    flip_pattern (flip_pattern p) = p := by
  rcases eq_or_ne p [] with rfl | hne
  · rfl
  have hsnd : p.map Prod.snd ≠ [] := by simpa using hne
  have hne1 : (p.map fun q : Int × Int => (q.1, maxC p - q.2)) ≠ [] := by simpa using hne
  have e1 : flip_pattern p = p.map fun q => (q.1, maxC p - q.2) := by
    simp only [flip_pattern, if_neg hne]
  have m1 : maxC (p.map fun q : Int × Int => (q.1, maxC p - q.2)) = maxC p := by
    rw [maxC_map, map_snd_comp, listMax_map_const_sub _ _ hsnd]
    simp only [show listMin (p.map Prod.snd) = minC p from rfl, h, sub_zero]
  rw [e1]
  simp only [flip_pattern, if_neg hne1, m1, List.map_map]
  have : ∀ q ∈ p, ((fun q : Int × Int => (q.1, maxC p - q.2)) ∘
      fun q : Int × Int => (q.1, maxC p - q.2)) q = id q := by
    intro q _
    simp only [Function.comp, id]
    have hq : maxC p - (maxC p - q.2) = q.2 := by omega
    rw [hq]
  rw [List.map_congr_left this, List.map_id]

theorem flip_pattern_involution_witness :
    flip_pattern (flip_pattern [((0:Int),(0:Int)), (0,2), (1,1)]) = [(0,0), (0,2), (1,1)] :=
  flip_pattern_involution [(0,0), (0,2), (1,1)] (by decide)

@[simp] theorem preUpdate_board (s : Session) (a : Nat) : (preUpdate s a).board = s.board := by
  unfold preUpdate; split <;> rfl

@[simp] theorem preUpdate_generation (s : Session) (a : Nat) :
    (preUpdate s a).generation = s.generation := by
  unfold preUpdate; split <;> rfl

@[simp] theorem preUpdate_gameNo (s : Session) (a : Nat) : (preUpdate s a).gameNo = s.gameNo := by
  unfold preUpdate; split <;> rfl

@[simp] theorem preUpdate_maxGeneration (s : Session) (a : Nat) :
    (preUpdate s a).maxGeneration = s.maxGeneration := by
  unfold preUpdate; split <;> rfl

@[simp] theorem preUpdate_history (s : Session) (a : Nat) :
    (preUpdate s a).history = s.history := by
  unfold preUpdate; split <;> rfl

@[simp] theorem preUpdate_paused (s : Session) (a : Nat) : (preUpdate s a).paused = s.paused := by
  unfold preUpdate; split <;> rfl

@[simp] theorem preUpdate_editMode (s : Session) (a : Nat) :
    (preUpdate s a).editMode = s.editMode := by
  unfold preUpdate; split <;> rfl

@[simp] theorem preUpdate_placementMode (s : Session) (a : Nat) :
    (preUpdate s a).placementMode = s.placementMode := by
  unfold preUpdate; split <;> rfl

@[simp] theorem preUpdate_patternSelectionMode (s : Session) (a : Nat) :
    (preUpdate s a).patternSelectionMode = s.patternSelectionMode := by
  unfold preUpdate; split <;> rfl

@[simp] theorem preUpdate_selectedPatternIndex (s : Session) (a : Nat) :
    (preUpdate s a).selectedPatternIndex = s.selectedPatternIndex := by
  unfold preUpdate; split <;> rfl

@[simp] theorem preUpdate_cursorY (s : Session) (a : Nat) : (preUpdate s a).cursorY = s.cursorY := by
  unfold preUpdate; split <;> rfl

@[simp] theorem preUpdate_cursorX (s : Session) (a : Nat) : (preUpdate s a).cursorX = s.cursorX := by
  unfold preUpdate; split <;> rfl

@[simp] theorem preUpdate_searchQuery (s : Session) (a : Nat) :
    (preUpdate s a).searchQuery = s.searchQuery := by
  unfold preUpdate; split <;> rfl

@[simp] theorem preUpdate_patternRotation (s : Session) (a : Nat) :
    (preUpdate s a).patternRotation = s.patternRotation := by
  unfold preUpdate; split <;> rfl

@[simp] theorem preUpdate_patternFlip (s : Session) (a : Nat) :
    (preUpdate s a).patternFlip = s.patternFlip := by
  unfold preUpdate; split <;> rfl

@[simp] theorem isStaticMode_preUpdate (s : Session) (a : Nat) :
    isStaticMode (preUpdate s a) = isStaticMode s := by
  unfold isStaticMode; simp

@[simp] theorem pushHistC_paused (cfg : Config) (s : Session) (a : Nat) :
    (pushHistC cfg s a).paused = s.paused := by
  unfold pushHistC; split <;> rfl

@[simp] theorem pushHistC_editMode (cfg : Config) (s : Session) (a : Nat) :
    (pushHistC cfg s a).editMode = s.editMode := by
  unfold pushHistC; split <;> rfl

@[simp] theorem pushHistC_placementMode (cfg : Config) (s : Session) (a : Nat) :
    (pushHistC cfg s a).placementMode = s.placementMode := by
  unfold pushHistC; split <;> rfl

@[simp] theorem pushHistC_patternSelectionMode (cfg : Config) (s : Session) (a : Nat) :
    (pushHistC cfg s a).patternSelectionMode = s.patternSelectionMode := by
  unfold pushHistC; split <;> rfl

@[simp] theorem pushHistC_paused_isStatic (cfg : Config) (s : Session) (a : Nat) :
    isStaticMode (pushHistC cfg s a) = isStaticMode s := by
  unfold isStaticMode; simp

@[simp] theorem advanceGen_history (s : Session) : (advanceGen s).history = s.history := rfl

@[simp] theorem advanceGen_paused (s : Session) : (advanceGen s).paused = s.paused := rfl

@[simp] theorem advanceGen_editMode (s : Session) : (advanceGen s).editMode = s.editMode := rfl

@[simp] theorem advanceGen_placementMode (s : Session) :
    (advanceGen s).placementMode = s.placementMode := rfl

@[simp] theorem advanceGen_patternSelectionMode (s : Session) :
    (advanceGen s).patternSelectionMode = s.patternSelectionMode := rfl

@[simp] theorem pushHistC_gameNo (cfg : Config) (s : Session) (a : Nat) :
    (pushHistC cfg s a).gameNo = s.gameNo := by
  unfold pushHistC; split <;> rfl

@[simp] theorem pushHistC_generation (cfg : Config) (s : Session) (a : Nat) :
    (pushHistC cfg s a).generation = s.generation := by
  unfold pushHistC; split <;> rfl

@[simp] theorem pushHistC_maxGeneration (cfg : Config) (s : Session) (a : Nat) :
    (pushHistC cfg s a).maxGeneration = s.maxGeneration := by
  unfold pushHistC; split <;> rfl

theorem handleSelection_history (cfg : Config) (s : Session) (input : Option String)
    (dns : List String) : (handleSelection cfg s input dns).history = s.history := by
  unfold handleSelection
  split_ifs <;> rfl

theorem handlePlacement_history (cfg : Config) (s : Session) (input : Option String)
    (dp : Option (List (Int × Int))) : (handlePlacement cfg s input dp).history = s.history := by
  cases dp with
  | none => unfold handlePlacement; split_ifs <;> rfl
  | some pat => unfold handlePlacement; dsimp only; split_ifs <;> rfl

theorem handleEdit_history (cfg : Config) (s : Session) (input : Option String) :
    (handleEdit cfg s input).history = s.history := by
  unfold handleEdit
  split_ifs <;> rfl

/-- The history-clearing invariant is preserved by the input-handling block. -/
theorem handleInput_inv (cfg : Config) (fresh : List (List Bool)) (s : Session)
    (input : Option String) (dns : List String) (dp : Option (List (Int × Int)))
    (hinv : isStaticMode s = true → s.history = []) :
    isStaticMode (handleInput cfg fresh s input dns dp) = true →
    (handleInput cfg fresh s input dns dp).history = [] := by
  unfold handleInput
  split_ifs with h1 h2 h3 h4 h5 h6 h7 h8 h9
  · intro _; rfl
  · intro _; rfl
  · intro _; rfl
  · intro _
    exact hinv (by simp [isStaticMode, h4.1])
  · intro _
    rw [handleSelection_history]
    exact hinv (by simp [isStaticMode, h5])
  · intro _
    rw [handlePlacement_history]
    exact hinv (by simp [isStaticMode, h6])
  · intro _
    rw [handleEdit_history]
    exact hinv (by simp [isStaticMode, h7])
  · intro _
    rfl
  · intro _
    exact hinv (by simp [isStaticMode, h9])
  · intro hst
    exfalso
    simp only [isStaticMode, advanceGen_paused, advanceGen_editMode,
      advanceGen_placementMode, advanceGen_patternSelectionMode] at hst
    simp only [Bool.or_eq_true] at hst
    rcases hst with ((hh | hh) | hh) | hh
    · exact h9 hh
    · exact absurd hh (by simpa using h7)
    · exact absurd hh (by simpa using h6)
    · exact absurd hh (by simpa using h5)

theorem handleInput_restart (cfg : Config) (fresh : List (List Bool)) (s : Session)
    (dns : List String) (dp : Option (List (Int × Int))) (hpl : s.placementMode = false) :
    handleInput cfg fresh s (some "r") dns dp =
      { s with
        maxGeneration := max s.maxGeneration (s.generation : Int)
        gameNo := s.gameNo + 1
        board := fresh
        generation := 0
        lastAliveCount := 0
        paused := false
        editMode := false
        history := [] } := by
  unfold handleInput
  rw [if_pos ⟨rfl, hpl⟩]

theorem step_inv (cfg : Config) (fresh : List (List Bool)) (s s' : Session)
    (input : Option String)
    (hinv : isStaticMode s = true → s.history = [])
    (hstep : step cfg fresh s input = .cont s') :
    isStaticMode s' = true → s'.history = [] := by
  unfold step at hstep
  dsimp only at hstep
  split at hstep
  next hstatic =>
    injection hstep with h
    subst h
    apply handleInput_inv
    intro _
    simp only [preUpdate_history]
    exact hinv (by simpa using hstatic)
  next hstatic =>
    split at hstep
    next hdead =>
      split at hstep
      next hend =>
        injection hstep with h
        subst h
        intro _
        rfl
      next hend => exact absurd hstep (by simp)
    next hdead =>
      injection hstep with h
      subst h
      apply handleInput_inv
      intro h2
      exfalso
      apply hstatic
      simpa using h2

/-- C4: in every reachable session state that is not Running (paused, editing,
browsing, or placing), the stagnation history is empty; and any continuing
step on the Restart key from a non-placement state leaves an empty history. -/
theorem static_mode_history_empty (cfg : Config) (s : Session) (h : Reachable cfg s) :
    (isStaticMode s = true → s.history = []) ∧
    (∀ (fresh : List (List Bool)) (s' : Session), s.placementMode = false →
      step cfg fresh s (some "r") = .cont s' → s'.history = []) := by
  have main : isStaticMode s = true → s.history = [] := by
    induction h with
    | init b => intro _; rfl
    | step t t' fresh input hr hstep ih => exact step_inv cfg fresh t t' input ih hstep
  refine ⟨main, ?_⟩
  intro fresh s' hpl hstep
  unfold step at hstep
  dsimp only at hstep
  split at hstep
  next hstatic =>
    injection hstep with h2
    subst h2
    rw [handleInput_restart _ _ _ _ _ (by simpa using hpl)]
  next hstatic =>
    split at hstep
    next hdead =>
      split at hstep
      next hend =>
        injection hstep with h2
        subst h2
        rfl
      next hend => exact absurd hstep (by simp)
    next hdead =>
      injection hstep with h2
      subst h2
      rw [handleInput_restart _ _ _ _ _ (by simpa using hpl)]

theorem static_mode_history_empty_witness :
    isStaticMode sPausedW = true ∧ sPausedW.history = [] :=
  ⟨by decide,
   (static_mode_history_empty cfgW sPausedW
     (Reachable.step (initSession bW) sPausedW bW (some "p")
       (Reachable.init bW) (by decide))).1 (by decide)⟩

theorem stagnatedB_iff (cfg : Config) (s : Session) :
    stagnatedB cfg s = true ↔
      ∃ N, cfg.stagnateLimit = some N ∧ s.history.length = N ∧
        is_cyclical s.history = true := by
  unfold stagnatedB
  cases h : cfg.stagnateLimit with
  | none => simp
  | some N => simp [Bool.and_eq_true]

theorem deadB_iff (cfg : Config) (alive : Nat) (s : Session) :
    deadB cfg alive s = true ↔
      ((alive = 0 ∧ cfg.keepAlive = false) ∨
       (∃ N, cfg.stagnateLimit = some N ∧ s.history.length = N ∧
         is_cyclical s.history = true)) := by
  unfold deadB
  rw [Bool.or_eq_true, stagnatedB_iff]
  simp [Bool.and_eq_true, Bool.not_eq_true']

@[simp] theorem stagnatedB_preUpdate (cfg : Config) (s : Session) (a : Nat) :
    stagnatedB cfg (preUpdate s a) = stagnatedB cfg s := by
  unfold stagnatedB
  simp

@[simp] theorem deadB_preUpdate (cfg : Config) (a' : Nat) (s : Session) (a : Nat) :
    deadB cfg a' (preUpdate s a) = deadB cfg a' s := by
  unfold deadB
  simp

@[simp] theorem effectiveGen_preUpdate (cfg : Config) (s : Session) (a : Nat) :
    effectiveGen cfg (preUpdate s a) = effectiveGen cfg s := by
  unfold effectiveGen
  simp

theorem step_running_eq (cfg : Config) (fresh : List (List Bool)) (s : Session)
    (input : Option String)
    (hp : s.paused = false) (he : s.editMode = false) (hpl : s.placementMode = false)
    (hps : s.patternSelectionMode = false) :
    step cfg fresh s input =
      (if deadB cfg (countAlive s.board) s then
        (if cfg.endless then
          .cont (endlessRestart fresh (preUpdate s (countAlive s.board))
            (max s.maxGeneration (effectiveGen cfg s)))
         else .exit s.gameNo (max s.maxGeneration (effectiveGen cfg s)))
       else .cont (handleInput cfg fresh
         (pushHistC cfg (preUpdate s (countAlive s.board)) (countAlive s.board)) input
         (displayNames cfg s) (displayPatternOf cfg s (displayNames cfg s)))) := by
  unfold step
  dsimp only
  rw [if_neg (by simp [isStaticMode, hp, he, hpl, hps])]
  simp only [deadB_preUpdate, effectiveGen_preUpdate, preUpdate_maxGeneration,
    preUpdate_gameNo]

theorem handleInput_none_running (cfg : Config) (fresh : List (List Bool)) (s : Session)
    (dns : List String) (dp : Option (List (Int × Int)))
    (hp : s.paused = false) (he : s.editMode = false) (hpl : s.placementMode = false)
    (hps : s.patternSelectionMode = false) :
    handleInput cfg fresh s none dns dp = advanceGen s := by
  unfold handleInput
  rw [if_neg (by rintro ⟨h, -⟩; cases h), if_neg (by intro h; cases h),
    if_neg (by rintro ⟨-, -, -, h⟩; cases h), if_neg (by rintro ⟨-, -, -, h⟩; cases h),
    if_neg (by simp [hps]), if_neg (by simp [hpl]), if_neg (by simp [he]),
    if_neg (by rintro ⟨h, -⟩; rw [hp] at h; cases h), if_neg (by simp [hp])]

/-- C3: while Running, the step declares Dead exactly when (aliveCount = 0 and
not keepAlive) or stagnation is detected (a full history window that
is_cyclical accepts); on Dead the generation folded into the running maximum
is `generation - windowSize` under stagnation and `generation` otherwise, both
in the exit and in the endless-restart outcome. -/
theorem running_dead_condition (cfg : Config) (fresh : List (List Bool)) (s : Session)
    (hp : s.paused = false) (he : s.editMode = false) (hpl : s.placementMode = false)
    (hps : s.patternSelectionMode = false) :
    (cfg.endless = false →
      ((∃ g mg, step cfg fresh s none = .exit g mg) ↔
        ((countAlive s.board = 0 ∧ cfg.keepAlive = false) ∨
         (∃ N, cfg.stagnateLimit = some N ∧ s.history.length = N ∧
           is_cyclical s.history = true)))) ∧
    (∀ N, cfg.stagnateLimit = some N → s.history.length = N →
      is_cyclical s.history = true → cfg.endless = false →
      step cfg fresh s none =
        .exit s.gameNo (max s.maxGeneration ((s.generation : Int) - (N : Int)))) ∧
    (countAlive s.board = 0 → cfg.keepAlive = false →
      ¬ (∃ N, cfg.stagnateLimit = some N ∧ s.history.length = N ∧
          is_cyclical s.history = true) →
      cfg.endless = false →
      step cfg fresh s none =
        .exit s.gameNo (max s.maxGeneration (s.generation : Int))) ∧
    (∀ N, cfg.stagnateLimit = some N → s.history.length = N →
      is_cyclical s.history = true → cfg.endless = true →
      ∃ s', step cfg fresh s none = .cont s' ∧ s'.gameNo = s.gameNo + 1 ∧
        s'.generation = 0 ∧ s'.history = [] ∧
        s'.maxGeneration = max s.maxGeneration ((s.generation : Int) - (N : Int))) ∧
    (cfg.endless = true →
      ((∃ s', step cfg fresh s none = .cont s' ∧ s'.gameNo = s.gameNo + 1) ↔
        ((countAlive s.board = 0 ∧ cfg.keepAlive = false) ∨
         (∃ N, cfg.stagnateLimit = some N ∧ s.history.length = N ∧
           is_cyclical s.history = true)))) := by
  have hrun := step_running_eq cfg fresh s none hp he hpl hps
  refine ⟨?_, ?_, ?_, ?_, ?_⟩
  · intro hend
    have key : (∃ g mg, step cfg fresh s none = .exit g mg) ↔
        deadB cfg (countAlive s.board) s = true := by
      rw [hrun]
      by_cases hd : deadB cfg (countAlive s.board) s = true
      · simp [hd, hend]
      · simp [hd]
    rw [key, deadB_iff]
  · intro N hN hlen hcyc hend
    have hstag : stagnatedB cfg s = true := (stagnatedB_iff cfg s).mpr ⟨N, hN, hlen, hcyc⟩
    have hd : deadB cfg (countAlive s.board) s = true := by
      unfold deadB
      simp [hstag]
    have heff : effectiveGen cfg s = (s.generation : Int) - (N : Int) := by
      unfold effectiveGen
      rw [if_pos hstag, hN]
      rfl
    rw [hrun, if_pos hd, if_neg (by simp [hend]), heff]
  · intro ha hka hnostag hend
    have hstag : stagnatedB cfg s = false := by
      rcases hs : stagnatedB cfg s with _ | _
      · rfl
      · exact absurd ((stagnatedB_iff cfg s).mp hs) hnostag
    have hd : deadB cfg (countAlive s.board) s = true := by
      unfold deadB
      simp [ha, hka]
    have heff : effectiveGen cfg s = (s.generation : Int) := by
      unfold effectiveGen
      rw [if_neg (by simp [hstag])]
      omega
    rw [hrun, if_pos hd, if_neg (by simp [hend]), heff]
  · intro N hN hlen hcyc hend
    have hstag : stagnatedB cfg s = true := (stagnatedB_iff cfg s).mpr ⟨N, hN, hlen, hcyc⟩
    have hd : deadB cfg (countAlive s.board) s = true := by
      unfold deadB
      simp [hstag]
    have heff : effectiveGen cfg s = (s.generation : Int) - (N : Int) := by
      unfold effectiveGen
      rw [if_pos hstag, hN]
      rfl
    rw [hrun, if_pos hd, if_pos (by simp [hend])]
    refine ⟨_, rfl, ?_, ?_, ?_, ?_⟩
    · simp [endlessRestart]
    · rfl
    · rfl
    · simp [endlessRestart, heff]
  · intro hend
    rw [hrun, ← deadB_iff cfg (countAlive s.board) s]
    by_cases hd : deadB cfg (countAlive s.board) s = true
    · rw [if_pos hd, if_pos (by simp [hend])]
      simp only [hd, iff_true]
      exact ⟨_, rfl, by simp [endlessRestart]⟩
    · rw [if_neg hd,
        handleInput_none_running cfg fresh _ _ _ (by simp [hp]) (by simp [he])
          (by simp [hpl]) (by simp [hps])]
      constructor
      · rintro ⟨s', heq, hg⟩
        exfalso
        injection heq with heq2
        rw [← heq2] at hg
        simp [advanceGen] at hg
      · intro hdead
        exact absurd hdead hd

theorem wellShaped_setCellTrue (b : List (List Bool)) (rows cols : Nat)
    (hW : wellShaped b rows cols) (r0 c0 : Nat) :
    wellShaped (setCellTrue b r0 c0) rows cols := by
  obtain ⟨hlen, hrow⟩ := hW
  constructor
  · simp [setCellTrue, hlen]
  · intro i hi
    unfold setCellTrue
    rw [List.getD_eq_getElem?_getD, List.getElem?_set]
    split
    next heq =>
      subst heq
      split
      next hlt =>
        simp only [Option.getD_some, List.length_set]
        exact hrow r0 (by omega)
      next hlt => simp only [Option.getD_none]; omega
    next hne =>
      rw [← List.getD_eq_getElem?_getD]
      exact hrow i hi

theorem cell_setCellTrue (b : List (List Bool)) (rows cols : Nat)
    (hW : wellShaped b rows cols) (r0 c0 r c : Nat)
    (hr0 : r0 < rows) (hc0 : c0 < cols) (hr : r < rows) (hc : c < cols) :
    cell (setCellTrue b r0 c0) r c = if r = r0 ∧ c = c0 then true else cell b r c := by
  obtain ⟨hlen, hrow⟩ := hW
  have hrowlen : ∀ i, i < rows → ((b[i]?).getD []).length = cols := by
    intro i hi
    rw [← List.getD_eq_getElem?_getD]
    exact hrow i hi
  unfold cell setCellTrue
  simp only [List.getD_eq_getElem?_getD]
  rw [List.getElem?_set]
  by_cases hre : r0 = r
  · subst hre
    rw [if_pos rfl, if_pos (by omega)]
    simp only [Option.getD_some]
    rw [List.getElem?_set]
    by_cases hce : c0 = c
    · subst hce
      rw [if_pos rfl, if_pos (by rw [hrowlen r0 hr0]; omega), if_pos (by simp)]
      simp
    · rw [if_neg hce, if_neg (by rintro ⟨-, h⟩; exact hce h.symm)]
  · rw [if_neg hre, if_neg (by rintro ⟨h, -⟩; exact hre h.symm)]

theorem stampPattern_spec (rows cols : Nat) (cy cx : Int) :
    ∀ (pat : List (Int × Int)) (b : List (List Bool)), wellShaped b rows cols →
      wellShaped (stampPattern rows cols b cy cx pat) rows cols ∧
      (∀ r c : Nat, r < rows → c < cols →
        cell (stampPattern rows cols b cy cx pat) r c =
          (cell b r c ||
            pat.any fun d => decide (cy + d.1 = (r : Int) ∧ cx + d.2 = (c : Int))))
  | [], b, hW => by
    refine ⟨hW, ?_⟩
    intro r c _ _
    simp [stampPattern]
  | d :: t, b, hW => by
    have hguard : stampPattern rows cols b cy cx (d :: t) =
        stampPattern rows cols
          (if 0 ≤ cy + d.1 ∧ cy + d.1 < (rows : Int) ∧ 0 ≤ cx + d.2 ∧ cx + d.2 < (cols : Int)
           then setCellTrue b (cy + d.1).toNat (cx + d.2).toNat else b) cy cx t := by
      unfold stampPattern
      rw [List.foldl_cons]
    by_cases hg : 0 ≤ cy + d.1 ∧ cy + d.1 < (rows : Int) ∧ 0 ≤ cx + d.2 ∧ cx + d.2 < (cols : Int)
    · have hW1 : wellShaped (setCellTrue b (cy + d.1).toNat (cx + d.2).toNat) rows cols :=
        wellShaped_setCellTrue b rows cols hW _ _
      obtain ⟨ih1, ih2⟩ := stampPattern_spec rows cols cy cx t
        (setCellTrue b (cy + d.1).toNat (cx + d.2).toNat) hW1
      refine ⟨by rw [hguard, if_pos hg]; exact ih1, ?_⟩
      intro r c hr hc
      rw [hguard, if_pos hg, ih2 r c hr hc,
        cell_setCellTrue b rows cols hW _ _ r c (by omega) (by omega) hr hc,
        List.any_cons]
      by_cases hhit : cy + d.1 = (r : Int) ∧ cx + d.2 = (c : Int)
      · rw [if_pos (by omega), decide_eq_true hhit]
        simp
      · rw [if_neg (by omega), decide_eq_false hhit]
        simp
    · obtain ⟨ih1, ih2⟩ := stampPattern_spec rows cols cy cx t b hW
      refine ⟨by rw [hguard, if_neg hg]; exact ih1, ?_⟩
      intro r c hr hc
      rw [hguard, if_neg hg, ih2 r c hr hc, List.any_cons]
      have hhit : ¬(cy + d.1 = (r : Int) ∧ cx + d.2 = (c : Int)) := by omega
      rw [decide_eq_false hhit]
      simp

theorem preUpdate_of_placement (s : Session) (a : Nat) (hpl : s.placementMode = true) :
    preUpdate s a = s := by
  unfold preUpdate
  rw [if_neg (by simp [hpl])]

theorem handleInput_placement_space (cfg : Config) (fresh : List (List Bool)) (s : Session)
    (dns : List String) (dp : Option (List (Int × Int)))
    (hpl : s.placementMode = true) (hps : s.patternSelectionMode = false) :
    handleInput cfg fresh s (some " ") dns dp = handlePlacement cfg s (some " ") dp := by
  unfold handleInput
  rw [if_neg (by rintro ⟨h, -⟩; exact absurd h (by decide)),
    if_neg (by intro h; exact absurd h (by decide)),
    if_neg (by rintro ⟨-, -, -, h⟩; exact absurd h (by decide)),
    if_neg (by rintro ⟨-, -, -, h⟩; exact absurd h (by decide)),
    if_neg (by simp [hps]), if_pos hpl]

theorem handlePlacement_space (cfg : Config) (s : Session)
    (dp : Option (List (Int × Int))) :
    handlePlacement cfg s (some " ") dp =
      (match dp with
       | some pat =>
         if !pat.isEmpty then
           { s with board := stampPattern cfg.rows cfg.cols s.board s.cursorY s.cursorX pat }
         else s
       | none => s) := by
  unfold handlePlacement
  rw [if_neg (by decide), if_neg (by decide), if_neg (by decide), if_neg (by decide),
    if_neg (by intro h; exact absurd h (by decide)),
    if_neg (by intro h; exact absurd h (by decide)), if_pos rfl]

/-- C5: committing a pattern with Select in Placing mode stamps the stored
pattern with flip applied first and rotation second, ORed onto the board at
the cursor: an in-bounds `cursor + offset` cell becomes alive, out-of-bounds
offsets are skipped, and every other cell keeps its previous value. -/
theorem placement_commit (cfg : Config) (fresh : List (List Bool)) (s : Session)
    (hpl : s.placementMode = true) (hps : s.patternSelectionMode = false)
    (hW : wellShaped s.board cfg.rows cfg.cols)
    (hidx : s.selectedPatternIndex.toNat < (displayNames cfg s).length) :
    ∃ s', step cfg fresh s (some " ") = .cont s' ∧
      wellShaped s'.board cfg.rows cfg.cols ∧
      (∀ r c : Nat, r < cfg.rows → c < cfg.cols →
        cell s'.board r c =
          (cell s.board r c ||
            (rotate_pattern
              (if s.patternFlip then
                flip_pattern
                  (cfg.library ((displayNames cfg s).getD s.selectedPatternIndex.toNat ""))
               else
                 cfg.library ((displayNames cfg s).getD s.selectedPatternIndex.toNat ""))
              (Int.ofNat s.patternRotation)).any
              fun d => decide (s.cursorY + d.1 = (r : Int) ∧ s.cursorX + d.2 = (c : Int)))) := by
  have hdns : (displayNames cfg s).isEmpty = false := by
    rcases hdns : (displayNames cfg s) with _ | ⟨nm, rest⟩
    · rw [hdns] at hidx
      simp at hidx
    · rfl
  have hdp : displayPatternOf cfg s (displayNames cfg s) =
      some (rotate_pattern
        (if s.patternFlip then
          flip_pattern (cfg.library ((displayNames cfg s).getD s.selectedPatternIndex.toNat ""))
         else cfg.library ((displayNames cfg s).getD s.selectedPatternIndex.toNat ""))
        (Int.ofNat s.patternRotation)) := by
    unfold displayPatternOf
    rw [if_pos (by simp [hpl, hdns])]
  have hstep : step cfg fresh s (some " ") =
      .cont (handlePlacement cfg s (some " ")
        (displayPatternOf cfg s (displayNames cfg s))) := by
    unfold step
    dsimp only
    rw [if_pos (by simp [isStaticMode, hpl]), preUpdate_of_placement s _ hpl,
      handleInput_placement_space cfg fresh s _ _ hpl hps]
  rw [hstep, handlePlacement_space, hdp]
  set pat := rotate_pattern
    (if s.patternFlip then
      flip_pattern (cfg.library ((displayNames cfg s).getD s.selectedPatternIndex.toNat ""))
     else cfg.library ((displayNames cfg s).getD s.selectedPatternIndex.toNat ""))
    (Int.ofNat s.patternRotation) with hpat
  dsimp only
  by_cases hemp : pat.isEmpty
  · rw [if_neg (by simp [hemp])]
    refine ⟨s, rfl, hW, ?_⟩
    intro r c _ _
    rcases pat with _ | _
    · simp
    · simp at hemp
  · rw [if_pos (by simp [hemp])]
    obtain ⟨h1, h2⟩ := stampPattern_spec cfg.rows cfg.cols s.cursorY s.cursorX pat s.board hW
    exact ⟨_, rfl, h1, fun r c hr hc => h2 r c hr hc⟩

theorem handleInput_placement_r (cfg : Config) (fresh : List (List Bool)) (s : Session)
    (dns : List String) (dp : Option (List (Int × Int)))
    (hpl : s.placementMode = true) (hps : s.patternSelectionMode = false) :
    handleInput cfg fresh s (some "r") dns dp = handlePlacement cfg s (some "r") dp := by
  unfold handleInput
  rw [if_neg (by rintro ⟨-, h⟩; rw [hpl] at h; cases h),
    if_neg (by intro h; exact absurd h (by decide)),
    if_neg (by rintro ⟨-, -, -, h⟩; exact absurd h (by decide)),
    if_neg (by rintro ⟨-, -, -, h⟩; exact absurd h (by decide)),
    if_neg (by simp [hps]), if_pos hpl]

theorem handlePlacement_r (cfg : Config) (s : Session) (dp : Option (List (Int × Int))) :
    handlePlacement cfg s (some "r") dp =
      { s with patternRotation := (s.patternRotation + 90) % 360 } := by
  unfold handlePlacement
  rw [if_neg (by decide), if_neg (by decide), if_neg (by decide), if_neg (by decide),
    if_pos rfl]

/-- C9 (amended): the Restart key takes effect from every state except Placing
(including Editing and Browsing) whenever the tick does not itself declare the
run Dead: it folds the abandoned generation into the running maximum,
increments the game number, installs a fresh board, resets the generation,
clears History, and leaves Paused and Editing; the state becomes Running
except that an active Browsing mode persists. In Placing, Restart instead
rotates the pending pattern and changes nothing else. -/
theorem restart_availability (cfg : Config) (fresh : List (List Bool)) (s : Session) :
    (s.placementMode = false →
      (isStaticMode s = true ∨ deadB cfg (countAlive s.board) s = false) →
      ∃ s', step cfg fresh s (some "r") = .cont s' ∧
        s'.gameNo = s.gameNo + 1 ∧ s'.board = fresh ∧ s'.generation = 0 ∧
        s'.history = [] ∧ s'.maxGeneration = max s.maxGeneration (s.generation : Int) ∧
        s'.paused = false ∧ s'.editMode = false ∧
        s'.patternSelectionMode = s.patternSelectionMode ∧ s'.placementMode = false) ∧
    (s.placementMode = true → s.patternSelectionMode = false →
      ∃ s', step cfg fresh s (some "r") = .cont s' ∧
        s'.gameNo = s.gameNo ∧ s'.board = s.board ∧ s'.generation = s.generation ∧
        s'.history = s.history ∧
        s'.patternRotation = (s.patternRotation + 90) % 360) := by
  constructor
  · intro hpl hnd
    unfold step
    dsimp only
    by_cases hstat : isStaticMode s = true
    · rw [if_pos (by simpa using hstat),
        handleInput_restart cfg fresh _ _ _ (by simpa using hpl)]
      refine ⟨_, rfl, ?_, rfl, rfl, rfl, ?_, rfl, rfl, ?_, ?_⟩ <;> simp [hpl]
    · rcases hnd with hst | hnd
      · exact absurd hst hstat
      · rw [if_neg (by simpa using hstat), if_neg (by simpa using hnd),
          handleInput_restart cfg fresh _ _ _ (by simpa using hpl)]
        refine ⟨_, rfl, ?_, rfl, rfl, rfl, ?_, rfl, rfl, ?_, ?_⟩ <;> simp [hpl]
  · intro hpl hps
    unfold step
    dsimp only
    rw [if_pos (by simp [isStaticMode, hpl]), preUpdate_of_placement s _ hpl,
      handleInput_placement_r cfg fresh s _ _ hpl hps, handlePlacement_r]
    exact ⟨_, rfl, rfl, rfl, rfl, rfl, rfl⟩

/-- C9 counterexample: in an Editing state (editMode set, entered from
Paused), the Restart key still takes effect — the game number increments, the
generation resets, and the board is replaced — contradicting "not available
during Editing". -/
theorem restart_fires_in_editing :
    sEditW.editMode = true ∧
    ∃ s', step cfgW bW sEditW (some "r") = .cont s' ∧
      s'.gameNo = sEditW.gameNo + 1 ∧ s'.generation = 0 ∧ s'.editMode = false ∧
      s'.maxGeneration = 7 :=
  ⟨rfl, ⟨_, rfl, by decide, by decide, by decide, by decide⟩⟩

theorem restart_availability_witness :
    ∃ s', step cfgW bW sPausedW (some "r") = .cont s' ∧
      s'.gameNo = sPausedW.gameNo + 1 ∧ s'.board = bW ∧ s'.generation = 0 ∧
      s'.history = [] ∧
      s'.maxGeneration = max sPausedW.maxGeneration (sPausedW.generation : Int) ∧
      s'.paused = false ∧ s'.editMode = false ∧
      s'.patternSelectionMode = sPausedW.patternSelectionMode ∧
      s'.placementMode = false :=
  (restart_availability cfgW bW sPausedW).1 rfl (Or.inl (by decide))

theorem running_dead_condition_witness :
    step cfgW bW sStagW none =
      .exit sStagW.gameNo
        (max sStagW.maxGeneration ((sStagW.generation : Int) - ((4 : Nat) : Int))) :=
  (running_dead_condition cfgW bW sStagW rfl rfl rfl rfl).2.1 4 rfl (by decide) (by decide) rfl

theorem is_cyclical_spec_witness :
    is_cyclical [5, 5, 5, 5] = true ∧ is_cyclical [1, 2, 1] = false :=
  ⟨((is_cyclical_spec [5, 5, 5, 5]).2 (by decide)).mpr
      ⟨1, by decide, by decide, fun i h1 h2 => by
        have h2' : i < 4 := h2
        interval_cases i <;> rfl⟩,
   (is_cyclical_spec [1, 2, 1]).1 (by decide)⟩

theorem placement_commit_witness :
    ∃ s', step cfgP bP3 sP (some " ") = .cont s' ∧
      wellShaped s'.board cfgP.rows cfgP.cols ∧
      (∀ r c : Nat, r < cfgP.rows → c < cfgP.cols →
        cell s'.board r c =
          (cell sP.board r c ||
            (rotate_pattern
              (if sP.patternFlip then
                flip_pattern
                  (cfgP.library ((displayNames cfgP sP).getD sP.selectedPatternIndex.toNat ""))
               else
                 cfgP.library ((displayNames cfgP sP).getD sP.selectedPatternIndex.toNat ""))
              (Int.ofNat sP.patternRotation)).any
              fun d => decide (sP.cursorY + d.1 = (r : Int) ∧ sP.cursorX + d.2 = (c : Int)))) :=
  placement_commit cfgP bP3 sP rfl rfl
    ⟨rfl, fun i hi => by
      have hi' : i < 3 := hi
      interval_cases i <;> rfl⟩ (by decide)

end LifeGame
